import Mathlib

/-!
Verification of the cost-service core of the Cost_Manager repository:
the Ledger Write Gatekeeper (`POST /api/add`) and the Report Engine
(`GET /api/report`) from `costs.routes.js`, together with the month
arithmetic helpers and the two backing stores (costs collection and
cached-reports collection from `costs.model.js`).

Modelling conventions:
* JavaScript `Date` values are UTC milliseconds since the epoch (`Nat`);
  `new Date(year, monthIndex, 1)` is `jsDateMs`, computed with the
  standard civil-calendar day count.  All requests in scope have
  `year ≥ 1970`, so timestamps are non-negative.
* A request is modelled post-transport: body fields arrive as
  `JsVal` (string or not-a-string), `JsNum` (the classification of
  `Number(x)` as finite or not), and `DateInput` (the classification of
  `toDateOrNow`'s argument).  Finite JavaScript numbers are modelled as
  rationals; the binary-float representation itself is not modelled.
* The MongoDB `costs` collection is a `List CostEntry` in insertion
  order; `cost.find` filters it in scan order.  The `reports` collection
  is a `List ReportRow`; its unique index on (userid, year, month) makes
  `report.create` fail on a duplicate key, and the route discards that
  failure (`.catch`).  An extra `insertOk` flag models any other store
  failure of the best-effort cache write.
* `getReport` additionally reports which store interactions happened
  (`ledgerScanned`, `insertAttempted`), set exactly at the points where
  the route executes `cost.find` and `report.create`.
-/

namespace CostManager

/-! ### Calendar arithmetic (JS `Date` over UTC) -/

def msPerDay : Nat := 86400000

/-- Day number of civil date (y, m, d) counted from 1970-01-01
(Gregorian calendar), for years ≥ 1 and months 1..12. -/
def daysFromCivil (y m d : Nat) : Nat :=
  let yAdj := if m ≤ 2 then y - 1 else y
  let era := yAdj / 400
  let yoe := yAdj - era * 400
  let doy := (153 * (if m > 2 then m - 3 else m + 9) + 2) / 5 + d - 1
  let doe := yoe * 365 + yoe / 4 - yoe / 100 + doy
  era * 146097 + doe - 719468

/-- Inverse of `daysFromCivil`: civil (year, month, day) of a day number
counted from 1970-01-01. -/
def civilFromDays (z : Nat) : Nat × Nat × Nat :=
  let z' := z + 719468
  let era := z' / 146097
  let doe := z' % 146097
  let yoe := (doe - doe / 1460 + doe / 36524 - doe / 146097) / 365
  let y := yoe + era * 400
  let doy := doe - (365 * yoe + yoe / 4 - yoe / 100)
  let mp := (5 * doy + 2) / 153
  let d := doy - (153 * mp + 2) / 5 + 1
  let m := if mp < 10 then mp + 3 else mp - 9
  (if m ≤ 2 then y + 1 else y, m, d)

/-- `new Date(year, monthIndex, day).getTime()` for a non-negative
0-based `monthIndex`; JS normalizes `monthIndex ≥ 12` into later years. -/
def jsDateMs (year monthIndex day : Nat) : Nat :=
  msPerDay * daysFromCivil (year + monthIndex / 12) (monthIndex % 12 + 1) day

/-- `Date.prototype.getDate()`: 1-based day of month of a timestamp. -/
def getDate (ms : Nat) : Nat :=
  (civilFromDays (ms / msPerDay)).2.2

/-- `monthStart(year, month)` = `new Date(year, month - 1, 1)`. -/
def monthStart (year month : Nat) : Nat :=
  jsDateMs year (month - 1) 1

/-- `monthEndExclusive(year, month)` = `new Date(year, month, 1)`. -/
def monthEndExclusive (year month : Nat) : Nat :=
  jsDateMs year month 1

/-- `isPastMonth(year, month)` at current time `now`:
`monthEndExclusive(year, month).getTime() < now.getTime()`. -/
def isPastMonth (year month now : Nat) : Bool :=
  monthEndExclusive year month < now

/-! ### JavaScript value classifications used by the route helpers -/

/-- Whitespace removed by JavaScript `String.prototype.trim`
(the ASCII white space and line terminators, plus no-break space). -/
def isJsWhitespace (c : Char) : Bool :=
  c = ' ' || c = '\t' || c = '\n' || c = '\r' || c = '\x0b' || c = '\x0c' ||
    c = '\u00A0'

/-- JavaScript `s.trim()`: strip leading and trailing whitespace. -/
def jsTrim (s : String) : String :=
  ⟨((s.data.dropWhile isJsWhitespace).reverse.dropWhile isJsWhitespace).reverse⟩

/-- A request-body value as seen by `isNonEmptyString`: either a string
or some non-string value (undefined, null, number, object, ...). -/
inductive JsVal where
  | str (s : String)
  | nonStr
deriving DecidableEq

/-- The string content of a `JsVal` (empty for non-strings); used only
after `isNonEmptyString` has succeeded. -/
def JsVal.stringValue : JsVal → String
  | .str s => s
  | .nonStr => ""

/-- `isNonEmptyString(x)`: `typeof x === 'string' && x.trim().length > 0`. -/
def isNonEmptyString : JsVal → Bool
  | .str s => (jsTrim s).length > 0
  | .nonStr => false

/-- Classification of a body value `x` by `Number(x)`: a finite double
(modelled as a rational) or NaN/±Infinity. -/
inductive JsNum where
  | finite (q : Rat)
  | nonFinite
deriving DecidableEq

/-- `toNumber(x)`: `Number(x)` when finite, else `null`. -/
def toNumber : JsNum → Option Rat
  | .finite q => some q
  | .nonFinite => none

/-- `isValidCategory(cat)` on the raw body value: string comparison
against the five fixed categories (false for non-strings). -/
def isValidCategory : JsVal → Bool
  | .str cat =>
      cat = "food" || cat = "health" || cat = "housing" || cat = "sports" ||
        cat = "education"
  | .nonStr => false

/-- Classification of the `createdAt` body value as seen by
`toDateOrNow`: absent (undefined/null/''), a parseable date with
timestamp `ms`, or present but unparseable. -/
inductive DateInput where
  | missing
  | valid (ms : Nat)
  | invalid
deriving DecidableEq

/-- `toDateOrNow(x)` evaluated when the current time is `now`. -/
def toDateOrNow (x : DateInput) (now : Nat) : Option Nat :=
  match x with
  | .missing => some now
  | .valid ms => some ms
  | .invalid => none

/-! ### Stores -/

/-- One document of the `costs` collection (`costSchema`). -/
structure CostEntry where
  description : String
  category : String
  userid : Rat
  sum : Rat
  createdAt : Nat
deriving DecidableEq

/-- The `users` collection, abstracted to the list of numeric `id`
fields (the only field the cost service reads). -/
def userExists (usersStore : List Rat) (uid : Rat) : Bool :=
  (usersStore.find? (fun u => decide (u = uid))).isSome

/-! ### POST /api/add (Ledger Write Gatekeeper) -/

/-- The body of a `POST /api/add` request, post-transport. -/
structure AddBody where
  description : JsVal
  category : JsVal
  userid : JsNum
  sum : JsNum
  createdAt : DateInput

/-- Outcome of the add route: HTTP 400 / 404 / 200 with the created
document.  (The 500 branch fires only on a store failure, which the
pure model does not inject.) -/
inductive AddOutcome where
  | badRequest (message : String)
  | notFound (message : String)
  | created (entry : CostEntry)
deriving DecidableEq

/-- `router.post('/add')` from `costs.routes.js` (matching the variant
that also checks user existence): validates the fields, rejects
backdating against the request's current time `now`, rejects an unknown
owner, and otherwise appends the created document to the ledger.
Returns the HTTP outcome and the resulting costs collection. -/
def addCost (usersStore : List Rat) (ledger : List CostEntry)
    (body : AddBody) (now : Nat) : AddOutcome × List CostEntry :=
  let userid := toNumber body.userid
  let sumNumber := toNumber body.sum
  let createdAt := toDateOrNow body.createdAt now
  if ¬ isNonEmptyString body.description then
    (.badRequest "invalid description", ledger)
  else if ¬ (isNonEmptyString body.category && isValidCategory body.category) then
    (.badRequest "invalid category", ledger)
  else if userid.isNone then
    (.badRequest "invalid userid", ledger)
  else if sumNumber.isNone then
    (.badRequest "invalid sum", ledger)
  else if createdAt.isNone then
    (.badRequest "invalid createdAt", ledger)
  else
    let uid := userid.getD 0
    let s := sumNumber.getD 0
    let t := createdAt.getD now
    if t < now then
      (.badRequest "cannot add costs with past dates", ledger)
    else if ¬ userExists usersStore uid then
      (.notFound "user not found", ledger)
    else
      let entry : CostEntry :=
        ⟨jsTrim body.description.stringValue, body.category.stringValue, uid, s, t⟩
      (.created entry, ledger ++ [entry])

/-! ### GET /api/report (Report Engine) -/

/-- One item of a report bucket: `{sum: Number(c.sum), description, day}`. -/
structure ReportItem where
  sum : Rat
  description : String
  day : Nat
deriving DecidableEq

/-- The `costs` field of a report: the array of single-key category
objects `[{food: [...]}, {education: [...]}, ...]`, modelled as an
association list in array order. -/
abbrev Grouped := List (String × List ReportItem)

/-- `buildEmptycosts()`: every category present with an empty list. -/
def buildEmptycosts : Grouped :=
  [("food", []), ("education", []), ("health", []), ("housing", []), ("sports", [])]

/-- `addToGroupedcosts(grouped, category, item)`: push `item` onto the
first object that has key `category`; if none has it, do nothing. -/
def addToGroupedcosts : Grouped → String → ReportItem → Grouped
  | [], _, _ => []
  | (k, items) :: rest, category, item =>
    if k = category then (k, items ++ [item]) :: rest
    else (k, items) :: addToGroupedcosts rest category item

/-- One document of the `reports` collection (`reportSchema`);
`createdAt` is the caching time (the spec's `computedAt`). -/
structure ReportRow where
  userid : Rat
  year : Nat
  month : Nat
  costs : Grouped
  createdAt : Nat
deriving DecidableEq

/-- `report.findOne({userid, year, month})`: first row with that key
(the unique index guarantees at most one). -/
def reportFindOne (cache : List ReportRow) (userid : Rat) (year month : Nat) :
    Option ReportRow :=
  cache.find? (fun r => decide (r.userid = userid ∧ r.year = year ∧ r.month = month))

/-- `report.create({...}).catch(noop)`: insert unless the unique index
on (userid, year, month) already has the key or the store write fails
(`insertOk = false`); either failure is discarded, leaving the
collection unchanged. -/
def reportCreateCaught (cache : List ReportRow) (row : ReportRow)
    (insertOk : Bool) : List ReportRow :=
  if insertOk && (reportFindOne cache row.userid row.year row.month).isNone then
    cache ++ [row]
  else
    cache

/-- The item built from a ledger entry for the report:
`{sum: Number(c.sum), description: c.description, day: c.createdAt.getDate()}`. -/
def toReportItem (c : CostEntry) : ReportItem :=
  ⟨c.sum, c.description, getDate c.createdAt⟩

/-- The filter of `cost.find({userid, createdAt: {$gte: start, $lt: end}})`. -/
def inMonthRange (userid : Rat) (year month : Nat) (c : CostEntry) : Bool :=
  decide (c.userid = userid ∧ monthStart year month ≤ c.createdAt ∧
    c.createdAt < monthEndExclusive year month)

/-- The fresh computation of the report body: scan the ledger for the
owner's entries of the month (in scan order) and push each into its
category bucket. -/
def computeGrouped (ledger : List CostEntry) (userid : Rat) (year month : Nat) :
    Grouped :=
  List.foldl (fun g c => addToGroupedcosts g c.category (toReportItem c))
    buildEmptycosts (ledger.filter (inMonthRange userid year month))

/-- The JSON body of a successful report response. -/
structure ReportResult where
  userid : Rat
  year : Nat
  month : Nat
  costs : Grouped
deriving DecidableEq

/-- Outcome of `router.get('/report')` past parameter validation: the
response body, the resulting `reports` collection, and flags recording
whether the route executed `cost.find` (`ledgerScanned`) and
`report.create` (`insertAttempted`). -/
structure GetReportOut where
  result : ReportResult
  cache : List ReportRow
  ledgerScanned : Bool
  insertAttempted : Bool
deriving DecidableEq

/-- `router.get('/report')` from `costs.routes.js`, past parameter
validation, at current time `now`: for a past month return the cached
report when one exists; otherwise compute fresh from the ledger and, for
a past month, attempt the best-effort cache insert (`insertOk` models
whether the underlying store write would succeed apart from a duplicate
key). -/
def getReport (ledger : List CostEntry) (cache : List ReportRow)
    (userid : Rat) (year month : Nat) (now : Nat) (insertOk : Bool) :
    GetReportOut :=
  let cachedHit :=
    if isPastMonth year month now then reportFindOne cache userid year month
    else none
  match cachedHit with
  | some cached =>
      ⟨⟨cached.userid, cached.year, cached.month, cached.costs⟩, cache, false, false⟩
  | none =>
      let grouped := computeGrouped ledger userid year month
      if isPastMonth year month now then
        ⟨⟨userid, year, month, grouped⟩,
          reportCreateCaught cache ⟨userid, year, month, grouped, now⟩ insertOk,
          true, true⟩
      else
        ⟨⟨userid, year, month, grouped⟩, cache, true, false⟩

/-! ### Shared lemmas about the grouped-report structure -/

/-- The bucket of category `cat` in a grouped report: the value of the
first single-key object carrying that key. -/
def bucket (g : Grouped) (cat : String) : Option (List ReportItem) :=
  (g.find? (fun p => decide (p.1 = cat))).map Prod.snd

/-- The category keys of the fresh report shape, in array order. -/
def categoryKeys : List String :=
  ["food", "education", "health", "housing", "sports"]

theorem bucket_cons (k : String) (items : List ReportItem) (rest : Grouped)
    (cat : String) :
    bucket ((k, items) :: rest) cat =
      if k = cat then some items else bucket rest cat := by
  by_cases h : k = cat <;> simp [bucket, List.find?_cons, h]

theorem bucket_addToGroupedcosts (g : Grouped) (c cat : String) (item : ReportItem) :
    bucket (addToGroupedcosts g c item) cat =
      if c = cat then (bucket g cat).map (fun l => l ++ [item])
      else bucket g cat := by
  induction g with
  | nil =>
      simp only [addToGroupedcosts, bucket, List.find?_nil, Option.map_none']
      split <;> rfl
  | cons p rest ih =>
      obtain ⟨k, items⟩ := p
      by_cases hkc : k = c
      · subst hkc
        by_cases hkcat : k = cat
        · subst hkcat
          simp [addToGroupedcosts, bucket_cons]
        · simp [addToGroupedcosts, bucket_cons, hkcat]
      · by_cases hkcat : k = cat
        · subst hkcat
          simp [addToGroupedcosts, bucket_cons, hkc, Ne.symm hkc]
        · simp [addToGroupedcosts, bucket_cons, hkc, hkcat, ih]

theorem bucket_foldl_addToGroupedcosts (entries : List CostEntry) (g : Grouped)
    (cat : String) :
    bucket (List.foldl (fun g c => addToGroupedcosts g c.category (toReportItem c))
        g entries) cat =
      (bucket g cat).map
        (fun l => l ++ (entries.filter (fun c => decide (c.category = cat))).map
          toReportItem) := by
  induction entries generalizing g with
  | nil => cases h : bucket g cat <;> simp [h]
  | cons e es ih =>
      rw [List.foldl_cons, ih, bucket_addToGroupedcosts]
      by_cases hc : e.category = cat
      · rw [if_pos hc]
        cases h : bucket g cat <;>
          simp [h, List.filter_cons, hc, List.append_assoc]
      · rw [if_neg hc]
        cases h : bucket g cat <;> simp [h, List.filter_cons, hc]

theorem keys_addToGroupedcosts (g : Grouped) (c : String) (item : ReportItem) :
    (addToGroupedcosts g c item).map Prod.fst = g.map Prod.fst := by
  induction g with
  | nil => rfl
  | cons p rest ih =>
      obtain ⟨k, items⟩ := p
      by_cases hkc : k = c <;> simp [addToGroupedcosts, hkc, ih]

theorem keys_foldl_addToGroupedcosts (entries : List CostEntry) (g : Grouped) :
    (List.foldl (fun g c => addToGroupedcosts g c.category (toReportItem c))
        g entries).map Prod.fst = g.map Prod.fst := by
  induction entries generalizing g with
  | nil => rfl
  | cons e es ih => rw [List.foldl_cons, ih, keys_addToGroupedcosts]

theorem keys_computeGrouped (ledger : List CostEntry) (uid : Rat)
    (year month : Nat) :
    (computeGrouped ledger uid year month).map Prod.fst = categoryKeys := by
  rw [computeGrouped, keys_foldl_addToGroupedcosts]
  rfl

theorem bucket_of_keys {g : Grouped} {cat : String}
    (h : cat ∈ g.map Prod.fst) : ∃ items, bucket g cat = some items := by
  induction g with
  | nil => simp at h
  | cons p rest ih =>
      by_cases hp : p.1 = cat
      · exact ⟨p.2, by simp [bucket, List.find?_cons, hp]⟩
      · have : cat ∈ rest.map Prod.fst := by
          rcases List.mem_cons.mp h with h' | h'
          · exact absurd h'.symm hp
          · exact h'
        obtain ⟨items, hi⟩ := ih this
        exact ⟨items, by simpa [bucket, List.find?_cons, hp] using hi⟩

theorem bucket_computeGrouped (ledger : List CostEntry) (uid : Rat)
    (year month : Nat) (cat : String) (hcat : cat ∈ categoryKeys) :
    bucket (computeGrouped ledger uid year month) cat =
      some ((ledger.filter (fun c => decide (c.userid = uid ∧ c.category = cat ∧
        monthStart year month ≤ c.createdAt ∧
        c.createdAt < monthEndExclusive year month))).map toReportItem) := by
  rw [computeGrouped, bucket_foldl_addToGroupedcosts]
  have hinit : bucket buildEmptycosts cat = some [] := by
    fin_cases hcat <;> rfl
  rw [hinit, Option.map_some', List.nil_append, List.filter_filter]
  refine congrArg (fun l => some (List.map toReportItem l)) (List.filter_congr ?_)
  intro c _
  by_cases h1 : c.userid = uid <;>
    by_cases h2 : c.category = cat <;>
      by_cases h3 : monthStart year month ≤ c.createdAt <;>
        by_cases h4 : c.createdAt < monthEndExclusive year month <;>
          simp [inMonthRange, h1, h2, h3, h4]

/-! ### Branch equations of the report route -/

theorem getReport_hit (ledger : List CostEntry) (cache : List ReportRow)
    (uid : Rat) (year month now : Nat) (ok : Bool) (r : ReportRow)
    (hp : isPastMonth year month now = true)
    (hf : reportFindOne cache uid year month = some r) :
    getReport ledger cache uid year month now ok =
      ⟨⟨r.userid, r.year, r.month, r.costs⟩, cache, false, false⟩ := by
  unfold getReport
  rw [hp]
  simp [hf]

theorem getReport_miss_closed (ledger : List CostEntry) (cache : List ReportRow)
    (uid : Rat) (year month now : Nat) (ok : Bool)
    (hp : isPastMonth year month now = true)
    (hf : reportFindOne cache uid year month = none) :
    getReport ledger cache uid year month now ok =
      ⟨⟨uid, year, month, computeGrouped ledger uid year month⟩,
        reportCreateCaught cache
          ⟨uid, year, month, computeGrouped ledger uid year month, now⟩ ok,
        true, true⟩ := by
  unfold getReport
  rw [hp]
  simp [hf]

theorem getReport_open (ledger : List CostEntry) (cache : List ReportRow)
    (uid : Rat) (year month now : Nat) (ok : Bool)
    (hp : isPastMonth year month now = false) :
    getReport ledger cache uid year month now ok =
      ⟨⟨uid, year, month, computeGrouped ledger uid year month⟩, cache,
        true, false⟩ := by
  unfold getReport
  rw [hp]
  simp

/-! ### Month closedness (claim C5) -/

/-- C5: a month (year, month) counts as closed at current time t exactly
when the first instant of the following month is strictly earlier than
t; consequently the month containing t is never closed, and once closed
at t a month stays closed at every later time t2. -/
theorem isPastMonth_closed_iff_next_month_started (year month t t2 : Nat) :
    (isPastMonth year month t = true ↔ monthEndExclusive year month < t) ∧
    monthEndExclusive year month = monthStart year (month + 1) ∧
    (monthStart year month ≤ t → t < monthEndExclusive year month →
      isPastMonth year month t = false) ∧
    (isPastMonth year month t = true → t ≤ t2 →
      isPastMonth year month t2 = true) := by
  refine ⟨by simp [isPastMonth], by simp [monthStart, monthEndExclusive], ?_, ?_⟩
  · intro _ hlt
    simp only [isPastMonth, decide_eq_false_iff_not, not_lt]
    exact le_of_lt hlt
  · intro h hle
    simp only [isPastMonth, decide_eq_true_eq] at h ⊢
    exact lt_of_lt_of_le h hle

/-- Witness for C5 at January 2025: the month is open at its own first
instant and closed two milliseconds after its end. -/
theorem isPastMonth_closed_iff_next_month_started_witness :
    isPastMonth 2025 1 1735689600000 = false ∧
    isPastMonth 2025 1 1738368000002 = true :=
  ⟨(isPastMonth_closed_iff_next_month_started 2025 1 1735689600000 0).2.2.1
      (by decide) (by decide),
    (isPastMonth_closed_iff_next_month_started 2025 1 1738368000001
      1738368000002).2.2.2 (by decide) (by decide)⟩

/-! ### Report shape (claim C7) -/

/-- Invariant of the reports collection: every cached report body has
exactly the five category buckets, in the fresh-computation shape. -/
def CacheWF (cache : List ReportRow) : Prop :=
  ∀ r ∈ cache, r.costs.map Prod.fst = categoryKeys

theorem getReport_shape (ledger : List CostEntry) (cache : List ReportRow)
    (uid : Rat) (year month now : Nat) (ok : Bool) (hwf : CacheWF cache) :
    (getReport ledger cache uid year month now ok).result.costs.map Prod.fst =
        categoryKeys ∧
    CacheWF (getReport ledger cache uid year month now ok).cache := by
  cases hp : isPastMonth year month now with
  | false =>
      rw [getReport_open ledger cache uid year month now ok hp]
      exact ⟨keys_computeGrouped ledger uid year month, hwf⟩
  | true =>
      cases hf : reportFindOne cache uid year month with
      | some r =>
          have hr : r ∈ cache :=
            List.mem_of_find?_eq_some (by simpa [reportFindOne] using hf)
          rw [getReport_hit ledger cache uid year month now ok r hp hf]
          exact ⟨hwf r hr, hwf⟩
      | none =>
          rw [getReport_miss_closed ledger cache uid year month now ok hp hf]
          refine ⟨keys_computeGrouped ledger uid year month, ?_⟩
          intro r hr
          rw [reportCreateCaught] at hr
          split at hr
          · rcases List.mem_append.mp hr with h | h
            · exact hwf r h
            · rw [List.mem_singleton.mp h]
              exact keys_computeGrouped ledger uid year month
          · exact hwf r hr

/-- C7: every successful report response, cached or fresh, contains
exactly the 5 category buckets food, health, housing, sports, education,
each present as a (possibly empty) list, provided every row already in
the reports collection has that shape; and the response leaves the
collection in that shape. -/
theorem getReport_five_buckets (ledger : List CostEntry) (cache : List ReportRow)
    (uid : Rat) (year month now : Nat) (ok : Bool) (hwf : CacheWF cache) :
    ((getReport ledger cache uid year month now ok).result.costs.map
        Prod.fst).Perm ["food", "health", "housing", "sports", "education"] ∧
    (∀ cat ∈ (["food", "health", "housing", "sports", "education"] : List String),
      ∃ items,
        bucket (getReport ledger cache uid year month now ok).result.costs cat =
          some items) ∧
    CacheWF (getReport ledger cache uid year month now ok).cache := by
  obtain ⟨hkeys, hcache⟩ :=
    getReport_shape ledger cache uid year month now ok hwf
  refine ⟨by rw [hkeys]; decide, ?_, hcache⟩
  intro cat hcat
  refine bucket_of_keys ?_
  rw [hkeys]
  fin_cases hcat <;> decide

/-- Witness for C7: a report for an empty ledger and empty cache has all
five buckets. -/
theorem getReport_five_buckets_witness :
    CacheWF ([] : List ReportRow) ∧
    (((getReport [] [] 7 2025 3 0 true).result.costs.map Prod.fst).Perm
        ["food", "health", "housing", "sports", "education"] ∧
      (∀ cat ∈ (["food", "health", "housing", "sports", "education"] : List String),
        ∃ items,
          bucket (getReport [] [] 7 2025 3 0 true).result.costs cat = some items) ∧
      CacheWF (getReport [] [] 7 2025 3 0 true).cache) :=
  ⟨by simp [CacheWF], getReport_five_buckets [] [] 7 2025 3 0 true
    (by simp [CacheWF])⟩

/-! ### Fresh-report bucket contents (claim C2) -/

/-- C2: a getReport call that computes a fresh report (no cached report
is served) fills the bucket of each category with exactly the ledger
entries whose userid matches, whose category is that category and whose
timestamp lies in the half-open month window, each mapped to
(sum-as-number, description, day-of-month), in ledger scan order. -/
theorem getReport_fresh_bucket_exact (ledger : List CostEntry)
    (cache : List ReportRow) (uid : Rat) (year month now : Nat) (ok : Bool)
    (cat : String)
    (hfresh : isPastMonth year month now = true →
      reportFindOne cache uid year month = none)
    (hcat : cat ∈ categoryKeys) :
    bucket (getReport ledger cache uid year month now ok).result.costs cat =
      some ((ledger.filter (fun c => decide (c.userid = uid ∧ c.category = cat ∧
        monthStart year month ≤ c.createdAt ∧
        c.createdAt < monthEndExclusive year month))).map toReportItem) := by
  have hres : (getReport ledger cache uid year month now ok).result.costs =
      computeGrouped ledger uid year month := by
    cases hp : isPastMonth year month now with
    | false => rw [getReport_open ledger cache uid year month now ok hp]
    | true =>
        rw [getReport_miss_closed ledger cache uid year month now ok hp
          (hfresh hp)]
  rw [hres, bucket_computeGrouped ledger uid year month cat hcat]

/-- Witness for C2: with a three-entry ledger (one matching food entry
of owner 123, one of another owner, one in another month), the food
bucket of the freshly computed January 2025 report holds exactly the
matching entry, with its day of month. -/
theorem getReport_fresh_bucket_exact_witness :
    bucket (getReport
        [⟨"lunch", "food", 123, 50, 1736899200000⟩,
          ⟨"taxi", "food", 7, 20, 1736899200000⟩,
          ⟨"rent", "food", 123, 900, 1738368000000⟩]
        [] 123 2025 1 1736899200000 true).result.costs "food" =
      some [⟨50, "lunch", 15⟩] :=
  (getReport_fresh_bucket_exact
    [⟨"lunch", "food", 123, 50, 1736899200000⟩,
      ⟨"taxi", "food", 7, 20, 1736899200000⟩,
      ⟨"rent", "food", 123, 900, 1738368000000⟩]
    [] 123 2025 1 1736899200000 true "food" (by decide) (by decide)).trans
    (by decide)

/-! ### Cache fast path (claim C3) -/

/-- C3: when the requested month is closed and a cached report exists
for (ownerId, year, month), the engine returns the cached report
verbatim — no ledger scan, no insert, the reports collection untouched —
and the response does not depend on the current ledger contents. -/
theorem getReport_cached_verbatim (ledger ledger2 : List CostEntry)
    (cache : List ReportRow) (uid : Rat) (year month now : Nat) (ok : Bool)
    (r : ReportRow) (hp : isPastMonth year month now = true)
    (hf : reportFindOne cache uid year month = some r) :
    getReport ledger cache uid year month now ok =
      ⟨⟨r.userid, r.year, r.month, r.costs⟩, cache, false, false⟩ ∧
    getReport ledger cache uid year month now ok =
      getReport ledger2 cache uid year month now ok := by
  refine ⟨getReport_hit ledger cache uid year month now ok r hp hf, ?_⟩
  rw [getReport_hit ledger cache uid year month now ok r hp hf,
    getReport_hit ledger2 cache uid year month now ok r hp hf]

/-- Witness for C3: with a cached January 2025 row present and the month
closed, the response is the cached row and the collection is unchanged,
for two different ledgers. -/
theorem getReport_cached_verbatim_witness :
    getReport [] [⟨123, 2025, 1, buildEmptycosts, 1738368000005⟩] 123 2025 1
        1738368000010 true =
      ⟨⟨123, 2025, 1, buildEmptycosts⟩,
        [⟨123, 2025, 1, buildEmptycosts, 1738368000005⟩], false, false⟩ ∧
    getReport [] [⟨123, 2025, 1, buildEmptycosts, 1738368000005⟩] 123 2025 1
        1738368000010 true =
      getReport [⟨"lunch", "food", 123, 50, 1736899200000⟩]
        [⟨123, 2025, 1, buildEmptycosts, 1738368000005⟩] 123 2025 1
        1738368000010 true :=
  getReport_cached_verbatim [] [⟨"lunch", "food", 123, 50, 1736899200000⟩]
    [⟨123, 2025, 1, buildEmptycosts, 1738368000005⟩] 123 2025 1 1738368000010
    true ⟨123, 2025, 1, buildEmptycosts, 1738368000005⟩ (by decide) (by decide)

/-! ### Best-effort cache population (claim C4) -/

/-- C4: the cache insert is attempted exactly when the requested month
is closed and the lookup missed; and in that situation, whatever the
fate of the insert (`ok` covers a failing store write, a duplicate key
is swallowed by `reportCreateCaught`), the freshly computed report is
returned as the success response. -/
theorem getReport_insert_best_effort (ledger : List CostEntry)
    (cache : List ReportRow) (uid : Rat) (year month now : Nat) (ok : Bool) :
    ((getReport ledger cache uid year month now ok).insertAttempted = true ↔
      (isPastMonth year month now = true ∧
        reportFindOne cache uid year month = none)) ∧
    (isPastMonth year month now = true →
      reportFindOne cache uid year month = none →
      (getReport ledger cache uid year month now ok).result =
        ⟨uid, year, month, computeGrouped ledger uid year month⟩) := by
  cases hp : isPastMonth year month now with
  | false =>
      rw [getReport_open ledger cache uid year month now ok hp]
      refine ⟨by simp, ?_⟩
      intro h _
      simp at h
  | true =>
      cases hf : reportFindOne cache uid year month with
      | some r =>
          rw [getReport_hit ledger cache uid year month now ok r hp hf]
          refine ⟨by simp [hf], ?_⟩
          intro _ hnone
          exact Option.noConfusion hnone
      | none =>
          rw [getReport_miss_closed ledger cache uid year month now ok hp hf]
          exact ⟨by simp [hf], fun _ _ => rfl⟩

/-- Witness for C4: closed month, empty cache, and a store write that
fails (`ok = false`): the insert is attempted and the fresh report is
still the response. -/
theorem getReport_insert_best_effort_witness :
    (getReport [] [] 123 2025 1 1738368000010 false).insertAttempted = true ∧
    (getReport [] [] 123 2025 1 1738368000010 false).result =
      ⟨123, 2025, 1, computeGrouped [] 123 2025 1⟩ :=
  ⟨(getReport_insert_best_effort [] [] 123 2025 1 1738368000010 false).1.mpr
      ⟨by decide, by decide⟩,
    (getReport_insert_best_effort [] [] 123 2025 1 1738368000010 false).2
      (by decide) (by decide)⟩

/-! ### Idempotence for closed months (claim C8) -/

/-- C8: for a closed month, reading the report twice with no ledger
mutation in between (the second read at any later time) yields the same
bucket contents both times, and the second read leaves the reports
collection exactly as the first left it: no second insert, and the
stored row's caching time unchanged. -/
theorem getReport_idempotent_closed (ledger : List CostEntry)
    (cache : List ReportRow) (uid : Rat) (year month now1 now2 : Nat)
    (hp : isPastMonth year month now1 = true) (hle : now1 ≤ now2) :
    (getReport ledger (getReport ledger cache uid year month now1 true).cache
        uid year month now2 true).result.costs =
      (getReport ledger cache uid year month now1 true).result.costs ∧
    (getReport ledger (getReport ledger cache uid year month now1 true).cache
        uid year month now2 true).cache =
      (getReport ledger cache uid year month now1 true).cache ∧
    (getReport ledger (getReport ledger cache uid year month now1 true).cache
        uid year month now2 true).insertAttempted = false := by
  have hp2 : isPastMonth year month now2 = true := by
    simp only [isPastMonth, decide_eq_true_eq] at hp ⊢
    exact lt_of_lt_of_le hp hle
  cases hf : reportFindOne cache uid year month with
  | some r =>
      rw [getReport_hit ledger cache uid year month now1 true r hp hf]
      rw [getReport_hit ledger cache uid year month now2 true r hp2 hf]
      exact ⟨rfl, rfl, rfl⟩
  | none =>
      rw [getReport_miss_closed ledger cache uid year month now1 true hp hf]
      have hcc : reportCreateCaught cache
          ⟨uid, year, month, computeGrouped ledger uid year month, now1⟩ true =
          cache ++
            [⟨uid, year, month, computeGrouped ledger uid year month, now1⟩] := by
        rw [reportCreateCaught]
        simp [hf]
      have hf2 : reportFindOne
          (cache ++
            [⟨uid, year, month, computeGrouped ledger uid year month, now1⟩])
          uid year month =
          some ⟨uid, year, month, computeGrouped ledger uid year month, now1⟩ := by
        rw [reportFindOne, List.find?_append]
        rw [reportFindOne] at hf
        rw [hf]
        simp
      show (getReport ledger (reportCreateCaught cache
          ⟨uid, year, month, computeGrouped ledger uid year month, now1⟩ true)
          uid year month now2 true).result.costs = _ ∧ _
      rw [hcc]
      rw [getReport_hit ledger _ uid year month now2 true _ hp2 hf2]
      exact ⟨rfl, rfl, rfl⟩

/-- Witness for C8: first read of closed January 2025 populates the
cache; the second read returns the same buckets, leaves the cache
identical, and attempts no insert. -/
theorem getReport_idempotent_closed_witness :
    (getReport [⟨"lunch", "food", 123, 50, 1736899200000⟩]
        (getReport [⟨"lunch", "food", 123, 50, 1736899200000⟩] [] 123 2025 1
          1738368000010 true).cache 123 2025 1 1738368000020 true).result.costs =
      (getReport [⟨"lunch", "food", 123, 50, 1736899200000⟩] [] 123 2025 1
        1738368000010 true).result.costs ∧
    (getReport [⟨"lunch", "food", 123, 50, 1736899200000⟩]
        (getReport [⟨"lunch", "food", 123, 50, 1736899200000⟩] [] 123 2025 1
          1738368000010 true).cache 123 2025 1 1738368000020 true).cache =
      (getReport [⟨"lunch", "food", 123, 50, 1736899200000⟩] [] 123 2025 1
        1738368000010 true).cache ∧
    (getReport [⟨"lunch", "food", 123, 50, 1736899200000⟩]
        (getReport [⟨"lunch", "food", 123, 50, 1736899200000⟩] [] 123 2025 1
          1738368000010 true).cache 123 2025 1 1738368000020 true).insertAttempted
      = false :=
  getReport_idempotent_closed [⟨"lunch", "food", 123, 50, 1736899200000⟩] []
    123 2025 1 1738368000010 1738368000020 (by decide) (by decide)

/-! ### Gatekeeper: backdating (claim C1) -/

/-- C1: with all other fields valid, a supplied occurredAt strictly
earlier than the acceptance time is rejected as backdating with a
validation error and no ledger row; an omitted occurredAt defaults to
the acceptance time, so the backdating check passes and (for an
existing owner) the entry is admitted with timestamp `now`. -/
theorem addCost_backdating (usersStore : List Rat) (ledger : List CostEntry)
    (body : AddBody) (now t : Nat) (uid s : Rat)
    (hdesc : isNonEmptyString body.description = true)
    (hcat : (isNonEmptyString body.category && isValidCategory body.category)
      = true)
    (huid : toNumber body.userid = some uid)
    (hsum : toNumber body.sum = some s) :
    (body.createdAt = DateInput.valid t → t < now →
      addCost usersStore ledger body now =
        (.badRequest "cannot add costs with past dates", ledger)) ∧
    (body.createdAt = DateInput.missing → userExists usersStore uid = true →
      addCost usersStore ledger body now =
        (.created ⟨jsTrim body.description.stringValue, body.category.stringValue,
            uid, s, now⟩,
          ledger ++ [⟨jsTrim body.description.stringValue,
            body.category.stringValue, uid, s, now⟩])) := by
  constructor
  · intro hc hlt
    simp [addCost, hdesc, hcat, huid, hsum, hc, toDateOrNow, hlt]
  · intro hc hex
    simp [addCost, hdesc, hcat, huid, hsum, hc, toDateOrNow, hex]

/-- Witness for C1: a backdated request is rejected without a ledger
write; the same request without occurredAt is admitted at the
acceptance time. -/
theorem addCost_backdating_witness :
    addCost [123] []
        ⟨.str "lunch", .str "food", .finite 123, .finite 50,
          .valid 1736899199999⟩ 1736899200000 =
      (.badRequest "cannot add costs with past dates", []) ∧
    addCost [123] []
        ⟨.str "lunch", .str "food", .finite 123, .finite 50, .missing⟩
        1736899200000 =
      (.created ⟨"lunch", "food", 123, 50, 1736899200000⟩,
        [⟨"lunch", "food", 123, 50, 1736899200000⟩]) :=
  ⟨(addCost_backdating [123] []
      ⟨.str "lunch", .str "food", .finite 123, .finite 50,
        .valid 1736899199999⟩ 1736899200000 1736899199999 123 50
      (by decide) (by decide) rfl rfl).1 rfl (by decide),
    (addCost_backdating [123] []
      ⟨.str "lunch", .str "food", .finite 123, .finite 50, .missing⟩
      1736899200000 0 123 50 (by decide) (by decide) rfl rfl).2 rfl
      (by decide)⟩

/-! ### Gatekeeper: unknown owner (claim C6) -/

/-- C6: a request that passes field validation and the backdating check
but names an ownerId with no matching user is rejected with the
not-found error and the ledger is left unchanged. -/
theorem addCost_unknown_owner (usersStore : List Rat) (ledger : List CostEntry)
    (body : AddBody) (now t : Nat) (uid s : Rat)
    (hdesc : isNonEmptyString body.description = true)
    (hcat : (isNonEmptyString body.category && isValidCategory body.category)
      = true)
    (huid : toNumber body.userid = some uid)
    (hsum : toNumber body.sum = some s)
    (hdate : toDateOrNow body.createdAt now = some t)
    (hnotpast : ¬ t < now)
    (howner : userExists usersStore uid = false) :
    addCost usersStore ledger body now = (.notFound "user not found", ledger) := by
  simp [addCost, hdesc, hcat, huid, hsum, hdate, hnotpast, howner]

/-- Witness for C6: a valid, non-backdated request for an owner absent
from the users store yields the not-found outcome and no insert. -/
theorem addCost_unknown_owner_witness :
    addCost [7] []
        ⟨.str "lunch", .str "food", .finite 123, .finite 50, .missing⟩
        1736899200000 =
      (.notFound "user not found", []) :=
  addCost_unknown_owner [7] []
    ⟨.str "lunch", .str "food", .finite 123, .finite 50, .missing⟩
    1736899200000 1736899200000 123 50 (by decide) (by decide) rfl rfl rfl
    (by decide) (by decide)

/-! ### Gatekeeper: no sign or magnitude constraint on amounts (claim C10) -/

theorem stringValue_mem_categoryKeys (v : JsVal)
    (h : isValidCategory v = true) : v.stringValue ∈ categoryKeys := by
  cases v with
  | nonStr => simp [isValidCategory] at h
  | str s =>
      simp only [isValidCategory, Bool.or_eq_true, decide_eq_true_eq] at h
      rcases h with ((((h | h) | h) | h) | h) <;> subst h <;>
        simp [JsVal.stringValue, categoryKeys]

/-- C10: the amount is only required to be a finite number — a
non-finite or non-numeric sum is rejected as an invalid sum, while every
finite amount q (zero and negative included), with the other fields
valid, an existing owner and no backdating, is admitted with sum q and
the entry then appears in the fresh monthly report bucket of its
category. -/
theorem addCost_amount_unconstrained (usersStore : List Rat)
    (ledger : List CostEntry) (body : AddBody) (now t : Nat) (uid q : Rat)
    (year month : Nat)
    (hdesc : isNonEmptyString body.description = true)
    (hcat : (isNonEmptyString body.category && isValidCategory body.category)
      = true)
    (huid : toNumber body.userid = some uid) :
    (body.sum = JsNum.nonFinite →
      addCost usersStore ledger body now = (.badRequest "invalid sum", ledger)) ∧
    (body.sum = JsNum.finite q →
      toDateOrNow body.createdAt now = some t → ¬ t < now →
      userExists usersStore uid = true →
      monthStart year month ≤ t → t < monthEndExclusive year month →
      addCost usersStore ledger body now =
        (.created ⟨jsTrim body.description.stringValue, body.category.stringValue,
            uid, q, t⟩,
          ledger ++ [⟨jsTrim body.description.stringValue,
            body.category.stringValue, uid, q, t⟩]) ∧
      toReportItem ⟨jsTrim body.description.stringValue,
          body.category.stringValue, uid, q, t⟩ ∈
        (bucket (computeGrouped
            (ledger ++ [⟨jsTrim body.description.stringValue,
              body.category.stringValue, uid, q, t⟩]) uid year month)
          body.category.stringValue).getD []) := by
  have hcat2 : isValidCategory body.category = true :=
    (Bool.and_eq_true _ _ |>.mp hcat).2
  constructor
  · intro hs
    have hsum2 : toNumber body.sum = none := by rw [hs, toNumber]
    simp [addCost, hdesc, hcat, huid, hsum2]
  · intro hs hdate hnotpast hex hge hlt
    have hsum2 : toNumber body.sum = some q := by rw [hs, toNumber]
    refine ⟨by simp [addCost, hdesc, hcat, huid, hsum2, hdate, hnotpast,
      hex], ?_⟩
    rw [bucket_computeGrouped _ uid year month _
      (stringValue_mem_categoryKeys body.category hcat2)]
    rw [Option.getD_some]
    refine List.mem_map_of_mem toReportItem ?_
    rw [List.mem_filter]
    refine ⟨List.mem_append_right ledger (List.mem_singleton_self _), ?_⟩
    simp [hge, hlt]

/-- Witness for C10: a non-finite sum is rejected; a negative sum of
-3 is admitted for an existing owner and shows up in the January 2025
food bucket. -/
theorem addCost_amount_unconstrained_witness :
    addCost [123] []
        ⟨.str "lunch", .str "food", .finite 123, .nonFinite, .missing⟩
        1736899200000 =
      (.badRequest "invalid sum", []) ∧
    (addCost [123] []
        ⟨.str "lunch", .str "food", .finite 123, .finite (-3), .missing⟩
        1736899200000 =
      (.created ⟨"lunch", "food", 123, -3, 1736899200000⟩,
        [⟨"lunch", "food", 123, -3, 1736899200000⟩]) ∧
      toReportItem ⟨"lunch", "food", 123, -3, 1736899200000⟩ ∈
        (bucket (computeGrouped [⟨"lunch", "food", 123, -3, 1736899200000⟩]
          123 2025 1) "food").getD []) :=
  ⟨(addCost_amount_unconstrained [123] []
      ⟨.str "lunch", .str "food", .finite 123, .nonFinite, .missing⟩
      1736899200000 0 123 0 2025 1 (by decide) (by decide) rfl).1 rfl,
    (addCost_amount_unconstrained [123] []
      ⟨.str "lunch", .str "food", .finite 123, .finite (-3), .missing⟩
      1736899200000 1736899200000 123 (-3) 2025 1 (by decide) (by decide)
      rfl).2 rfl rfl (by decide) (by decide) (by decide) (by decide)⟩

end CostManager
